import Mathlib

set_option maxRecDepth 8000

/-!
Verification development for the container-management layer (docker.js).
Ecma-style string operations, the JSON value model, process invocation and
the container listing / command dispatch logic are embedded as executable
Lean definitions, translated from the source file src/docker.js.
-/

/-- Whitespace characters recognised when trimming and when skipping JSON
whitespace (space, tab, newline, carriage return). -/
def isJsWs (c : Char) : Bool :=
  c = ' ' || c = '\t' || c = '\n' || c = '\r'

/-- Helper for `jsSplit`: accumulates the current field (reversed) while
walking the character list. -/
def splitAux (sep : Char) : List Char → List Char → List String
  | [], acc => [String.mk acc.reverse]
  | c :: rest, acc =>
    if c = sep then String.mk acc.reverse :: splitAux sep rest []
    else splitAux sep rest (c :: acc)

/-- Model of the JavaScript `String.prototype.split` with a one-character
separator: `"".split(sep) = [""]`, separators at the ends produce empty
fields, and the result is never empty. -/
def jsSplit (sep : Char) (s : String) : List String :=
  splitAux sep s.toList []

/-- Model of the JavaScript `String.prototype.trim`: drops leading and
trailing whitespace characters. -/
def jsTrim (s : String) : String :=
  String.mk (((s.toList.dropWhile isJsWs).reverse.dropWhile isJsWs).reverse)

/-- Model of the JavaScript `Array.prototype.join` with a string separator. -/
def jsJoin (sep : String) : List String → String
  | [] => ""
  | [s] => s
  | s :: rest => s ++ sep ++ jsJoin sep rest

/-- JavaScript values produced by `JSON.parse`, plus `undef` for the
`undefined` value produced by property access on a missing key. -/
inductive JsValue where
  | undef
  | null
  | bool (b : Bool)
  | num (n : Int)
  | str (s : String)
  | arr (elems : List JsValue)
  | obj (fields : List (String × JsValue))

/-- Hexadecimal digit value of a character, if any (used for JSON string
escapes of the form backslash-u). -/
def hexDigit (c : Char) : Option Nat :=
  let n := c.toNat
  if 48 ≤ n ∧ n ≤ 57 then some (n - 48)
  else if 97 ≤ n ∧ n ≤ 102 then some (n - 87)
  else if 65 ≤ n ∧ n ≤ 70 then some (n - 55)
  else none

/-- Parses the body of a JSON string literal (after the opening quote),
returning the decoded characters and the input remaining after the closing
quote. -/
def parseStringBody : List Char → Option (List Char × List Char)
  | [] => none
  | '"' :: rest => some ([], rest)
  | '\\' :: 'u' :: h1 :: h2 :: h3 :: h4 :: rest =>
    match hexDigit h1, hexDigit h2, hexDigit h3, hexDigit h4 with
    | some n1, some n2, some n3, some n4 =>
      match parseStringBody rest with
      | some (cs, rem) =>
        some (Char.ofNat (((n1 * 16 + n2) * 16 + n3) * 16 + n4) :: cs, rem)
      | none => none
    | _, _, _, _ => none
  | '\\' :: e :: rest =>
    match
      (match e with
       | '"' => some '"'
       | '\\' => some '\\'
       | '/' => some '/'
       | 'n' => some '\n'
       | 't' => some '\t'
       | 'r' => some '\r'
       | 'b' => some (Char.ofNat 8)
       | 'f' => some (Char.ofNat 12)
       | _ => none) with
    | some c =>
      match parseStringBody rest with
      | some (cs, rem) => some (c :: cs, rem)
      | none => none
    | none => none
  | c :: rest =>
    match parseStringBody rest with
    | some (cs, rem) => some (c :: cs, rem)
    | none => none

/-- Drops leading JSON whitespace. -/
def skipWs : List Char → List Char
  | [] => []
  | c :: rest => if isJsWs c then skipWs rest else c :: rest

/-- Longest prefix of decimal digits and the remaining input. -/
def spanDigits : List Char → (List Char × List Char)
  | [] => ([], [])
  | c :: rest =>
    if c.isDigit then
      let (ds, rem) := spanDigits rest
      (c :: ds, rem)
    else ([], c :: rest)

/-- Decimal digits to a natural number. -/
def digitsToNat : List Char → Nat → Nat
  | [], acc => acc
  | c :: rest, acc => digitsToNat rest (acc * 10 + (c.toNat - 48))

/-- True when the input continues with a fractional or exponent part, which
this model of JSON numbers does not support. -/
def startsNumTail : List Char → Bool
  | [] => false
  | c :: _ => c = '.' || c = 'e' || c = 'E'

/-- Mode of the single-function JSON parser: a value, the members of an
object after the opening brace, or the elements of an array after the
opening bracket. -/
inductive PMode where
  | value
  | members
  | elements
deriving DecidableEq

/-- Modelled from the spec: the JavaScript builtin `JSON.parse` ("Parse each
inspect result as a JSON object (may legitimately be the literal null)"),
which is not part of the repository. Fuel-based recursive-descent over the
character list; `members` returns an `obj`, `elements` returns an `arr`.
Numbers are supported as integers only (label maps contain only strings). -/
def parseCore : Nat → PMode → List Char → Option (JsValue × List Char)
  | 0, _, _ => none
  | Nat.succ fuel, PMode.value, cs =>
    match skipWs cs with
    | 'n' :: 'u' :: 'l' :: 'l' :: rest => some (JsValue.null, rest)
    | 't' :: 'r' :: 'u' :: 'e' :: rest => some (JsValue.bool true, rest)
    | 'f' :: 'a' :: 'l' :: 's' :: 'e' :: rest => some (JsValue.bool false, rest)
    | '"' :: rest =>
      (match parseStringBody rest with
       | some (cs2, rem) => some (JsValue.str (String.mk cs2), rem)
       | none => none)
    | '{' :: rest =>
      (match skipWs rest with
       | '}' :: rem => some (JsValue.obj [], rem)
       | other => parseCore fuel PMode.members other)
    | '[' :: rest =>
      (match skipWs rest with
       | ']' :: rem => some (JsValue.arr [], rem)
       | other => parseCore fuel PMode.elements other)
    | '-' :: rest =>
      (match spanDigits rest with
       | ([], _) => none
       | (ds, rem) =>
         if startsNumTail rem then none
         else some (JsValue.num (-(digitsToNat ds 0 : Int)), rem))
    | c :: rest =>
      if c.isDigit then
        match spanDigits (c :: rest) with
        | (ds, rem) =>
          if startsNumTail rem then none
          else some (JsValue.num (digitsToNat ds 0 : Int), rem)
      else none
    | [] => none
  | Nat.succ fuel, PMode.members, cs =>
    match skipWs cs with
    | '"' :: rest =>
      (match parseStringBody rest with
       | some (kcs, rem) =>
         (match skipWs rem with
          | ':' :: rem2 =>
            (match parseCore fuel PMode.value rem2 with
             | some (v, rem3) =>
               (match skipWs rem3 with
                | ',' :: rem4 =>
                  (match parseCore fuel PMode.members rem4 with
                   | some (JsValue.obj fields, rem5) =>
                     some (JsValue.obj ((String.mk kcs, v) :: fields), rem5)
                   | _ => none)
                | '}' :: rem4 => some (JsValue.obj [(String.mk kcs, v)], rem4)
                | _ => none)
             | none => none)
          | _ => none)
       | none => none)
    | _ => none
  | Nat.succ fuel, PMode.elements, cs =>
    match parseCore fuel PMode.value cs with
    | some (v, rem) =>
      (match skipWs rem with
       | ',' :: rem2 =>
         (match parseCore fuel PMode.elements rem2 with
          | some (JsValue.arr vs, rem3) => some (JsValue.arr (v :: vs), rem3)
          | _ => none)
       | ']' :: rem2 => some (JsValue.arr [v], rem2)
       | _ => none)
    | none => none

/-- Modelled from the spec: `JSON.parse` on a whole string. `none` models a
thrown SyntaxError; trailing whitespace is permitted, trailing garbage is
not. -/
def jsonParse (s : String) : Option JsValue :=
  match parseCore (s.toList.length + 1) PMode.value s.toList with
  | some (v, rest) => if (skipWs rest).isEmpty then some v else none
  | none => none

/-- Total field lookup behind JavaScript property access: the first binding
of the key in an object, `undef` when the key is missing or the value is not
an object. -/
def jsonLookup : List (String × JsValue) → String → Option JsValue
  | [], _ => none
  | (k, v) :: rest, key => if k = key then some v else jsonLookup rest key

/-- Value part of JavaScript property access `o[key]` for the cases where the
access does not throw. -/
def fieldVal : JsValue → String → JsValue
  | JsValue.obj fields, key => (jsonLookup fields key).getD JsValue.undef
  | _, _ => JsValue.undef

/-- Errors a getContainers evaluation can surface with: a failed external
command, a JSON.parse SyntaxError, or the TypeError thrown by property
access on `null`/`undefined`. -/
inductive JsErr where
  | exec (code : Int) (message : String)
  | spawn (message : String)
  | badJson
  | typeError
deriving DecidableEq

/-- Model of JavaScript property access `o[key]` (source line 81 and
following): throws a TypeError when `o` is `null` or `undefined`, otherwise
yields the bound value or `undefined`. -/
def JsValue.getField (json : JsValue) (key : String) : Except JsErr JsValue :=
  match json with
  | JsValue.null => Except.error JsErr.typeError
  | JsValue.undef => Except.error JsErr.typeError
  | j => Except.ok (fieldVal j key)

/-- JavaScript truthiness of a value, as used by the conditional spread on
source line 81 and by `dockerCommand2 ? ... : ...` on line 172. -/
def JsValue.truthy : JsValue → Bool
  | JsValue.undef => false
  | JsValue.null => false
  | JsValue.bool b => b
  | JsValue.num n => n != 0
  | JsValue.str s => !s.toList.isEmpty
  | JsValue.arr _ => true
  | JsValue.obj _ => true

/-- Outcome of one spawned child process: `ok` is the success flag reported
to the communicate callback (the code treats it as "exit status zero"),
together with the captured stdout, stderr, and the exit status. -/
structure ProcResult where
  ok : Bool
  stdout : String
  stderr : String
  exitStatus : Int
deriving DecidableEq

/-- The host environment the code runs against: spawning a child process for
an argv (an `Except.error` models `proc.init` throwing, i.e. spawn failure),
`GLib.find_program_in_path`, and the system error formatters
`Gio.io_error_from_errno` and `GLib.strerror` (external C functions, kept
abstract as fields). -/
structure Host where
  run : List String → Except String ProcResult
  findProgramInPath : String → Bool
  ioErrorFromErrno : Int → Int
  strerror : Int → String

/-- Result of one `execCommand` call: the list of invocations of the
optional caller callback (each with its three arguments), and the value the
returned promise settles with (`Except.error` models rejection). -/
structure ExecOutcome where
  cbCalls : List (Bool × String × String)
  result : Except JsErr String

/-- Embedding of `execCommand(argv, callback)` (source lines 178 to 226).
If `proc.init` throws, the error is rethrown and the callback is never
invoked. Otherwise the callback (when provided) receives
`(ok, argv.join(" "), ok ? stdout : stderr)`; on `ok` the promise resolves
with stdout, else it rejects with a `Gio.IOErrorEnum` whose code is
`io_error_from_errno(status)` and whose message is the trimmed stderr when
stderr is non-empty, else `GLib.strerror(status)`. -/
def execCommand (h : Host) (argv : List String) (withCallback : Bool) : ExecOutcome :=
  match h.run argv with
  | Except.error m => { cbCalls := [], result := Except.error (JsErr.spawn m) }
  | Except.ok r =>
    let joined := jsJoin " " argv
    let calls := if withCallback then [(r.ok, joined, if r.ok then r.stdout else r.stderr)] else []
    if r.ok then { cbCalls := calls, result := Except.ok r.stdout }
    else
      { cbCalls := calls,
        result := Except.error (JsErr.exec (h.ioErrorFromErrno r.exitStatus)
          (if r.stderr = "" then h.strerror r.exitStatus else jsTrim r.stderr)) }

/-- Argv of the "list all containers" subcommand (source lines 54 to 60). -/
def psAllArgv : List String :=
  ["docker", "ps", "-a", "--format", "\x7b\x7b.Names\x7d\x7d,\x7b\x7b.Status\x7d\x7d"]

/-- Argv of the "list running containers" subcommand (source lines 101 to
106): same two-field format, no `-a` flag. -/
def psRunningArgv : List String :=
  ["docker", "ps", "--format", "\x7b\x7b.Names\x7d\x7d,\x7b\x7b.Status\x7d\x7d"]

/-- Argv of the per-container label inspection subcommand (source line 75). -/
def inspectArgv (name : String) : List String :=
  ["docker", "inspect", "-f", "\x7b\x7bjson .Config.Labels\x7d\x7d", name]

/-- The compose label namespace, `COMPOSE_PREFIX` in the source (line 6). -/
def composeNs : String := "com.docker.compose"

/-- Intermediate record of one listing line (source lines 65 to 70):
`const [name, status] = line.split(",")`. `status` is `none` when the line
has no comma (JavaScript `undefined`). -/
structure Image where
  name : String
  status : Option String
deriving DecidableEq

/-- Non-blank lines of the listing output (source lines 62 to 64):
`psOut.split("\n").filter((line) => line.trim().length)`. -/
def nonBlankLines (s : String) : List String :=
  (jsSplit '\n' s).filter (fun l => !(jsTrim l).toList.isEmpty)

/-- Splits one listing line at commas into name and status
(source lines 65 to 70). -/
def lineToImage (line : String) : Image :=
  { name := (jsSplit ',' line).headD "", status := (jsSplit ',' line)[1]? }

/-- The `images` array of `getContainers` (source lines 62 to 71). -/
def parseImages (psOut : String) : List Image :=
  (nonBlankLines psOut).map lineToImage

/-- The optional compose sub-record of a container (source lines 83 to 88);
each field holds the JavaScript value read from the parsed label map. -/
structure ComposeInfo where
  service : JsValue
  project : JsValue
  configFiles : JsValue
  workingDir : JsValue

/-- A normalized container record (source lines 78 to 93). `compose = none`
models the spread of the empty object, i.e. a record with no `compose` key
at all. -/
structure Container where
  name : String
  status : Option String
  compose : Option ComposeInfo

/-- Builds the final record for one container (source lines 78 to 93): the
conditional spread first reads the project label (throwing on a `null`
label map), and when it is truthy reads the four compose labels in source
order. -/
def buildRecord (json : JsValue) (img : Image) : Except JsErr Container :=
  match json.getField (composeNs ++ ".project") with
  | Except.error e => Except.error e
  | Except.ok proj =>
    if proj.truthy then
      match json.getField (composeNs ++ ".service") with
      | Except.error e => Except.error e
      | Except.ok service =>
        match json.getField (composeNs ++ ".project") with
        | Except.error e => Except.error e
        | Except.ok project =>
          match json.getField (composeNs ++ ".project.config_files") with
          | Except.error e => Except.error e
          | Except.ok configFiles =>
            match json.getField (composeNs ++ ".project.working_dir") with
            | Except.error e => Except.error e
            | Except.ok workingDir =>
              Except.ok { name := img.name, status := img.status,
                          compose := some { service := service, project := project,
                                            configFiles := configFiles,
                                            workingDir := workingDir } }
    else Except.ok { name := img.name, status := img.status, compose := none }

/-- The fan-out of inspect calls joined in listing order (source lines 73 to
77, `Promise.all(images.map(...))`): one inspect invocation per image, the
whole thing failing as soon as one fails. -/
def inspectAll (h : Host) : List Image → Except JsErr (List String)
  | [] => Except.ok []
  | img :: rest =>
    match (execCommand h (inspectArgv img.name) false).result with
    | Except.error e => Except.error e
    | Except.ok out =>
      match inspectAll h rest with
      | Except.error e => Except.error e
      | Except.ok outs => Except.ok (out :: outs)

/-- The final mapping of `getContainers` (source lines 78 to 93): pairs each
inspect output with the image of the same index, parses it as JSON
(rejecting on a SyntaxError) and builds the record. -/
def buildAll : List String → List Image → Except JsErr (List Container)
  | out :: outs, img :: imgs =>
    (match jsonParse out with
     | none => Except.error JsErr.badJson
     | some json =>
       match buildRecord json img with
       | Except.error e => Except.error e
       | Except.ok r =>
         match buildAll outs imgs with
         | Except.error e => Except.error e
         | Except.ok rs => Except.ok (r :: rs))
  | _, _ => Except.ok []

/-- Embedding of `getContainers` (source lines 53 to 94): lists all
containers, parses the lines, inspects every container concurrently and
re-joins the results by original index. An `Except.error` models the
returned promise rejecting. -/
def getContainers (h : Host) : Except JsErr (List Container) :=
  match (execCommand h psAllArgv false).result with
  | Except.error e => Except.error e
  | Except.ok psOut =>
    match inspectAll h (parseImages psOut) with
    | Except.error e => Except.error e
    | Except.ok containersInfo => buildAll containersInfo (parseImages psOut)

/-- Embedding of `getContainerCount` (source lines 100 to 119): lists the
running containers with the same two-field format, parses the lines the same
way and returns only their number; no inspect call is made. -/
def getContainerCount (h : Host) : Except JsErr Nat :=
  match (execCommand h psRunningArgv false).result with
  | Except.error e => Except.error e
  | Except.ok psOut => Except.ok (parseImages psOut).length

/-- The `command` argument of `runCommand`: the code indexes it with
`command[0]` and flattens it with `[command].flat()`, so it is either a
plain string (indexing yields its first character) or an array of strings
(indexing yields its first element). -/
inductive Command where
  | str (s : String)
  | arr (xs : List String)
deriving DecidableEq

/-- JavaScript `command[0]`: first element of an array, one-character string
for a string, `undefined` (here `none`) when empty. -/
def Command.index0 : Command → Option String
  | Command.str s =>
    match s.toList with
    | [] => none
    | c :: _ => some (String.mk [c])
  | Command.arr xs => xs[0]?

/-- JavaScript `[command].flat()`: wraps a string, unwraps an array. -/
def Command.flat : Command → List String
  | Command.str s => [s]
  | Command.arr xs => xs

/-- The four terminal identifiers probed by `runCommand`, in the insertion
order of the `validTerminals` object (source lines 128 to 133); this is the
order `Object.keys` reports in the error message. -/
def terminalIds : List String :=
  ["x-terminal-emulator", "gnome-terminal", "ptyxis", "kgx"]

/-- The terminal command chosen by the if-chain of source lines 136 to 144:
`kgx`, then `ptyxis`, then `gnome-terminal`, then `x-terminal-emulator`;
`none` when no terminal is available. -/
def termCmd (h : Host) : Option (List String) :=
  if h.findProgramInPath "kgx" then some ["kgx", "-e"]
  else if h.findProgramInPath "ptyxis" then some ["ptyxis", "--", "sh", "-c"]
  else if h.findProgramInPath "gnome-terminal" then some ["gnome-terminal", "--", "sh", "-c"]
  else if h.findProgramInPath "x-terminal-emulator" then some ["x-terminal-emulator", "-e", "sh", "-c"]
  else none

/-- Observable outcome of one `runCommand` dispatch: either the no-terminal
early return (carrying the three arguments passed to the caller callback and
executing nothing), or a `GLib.spawn_command_line_async` of a terminal
command line (exec and logs cases), or a delegation to `execCommand` with
the built argv (default case, callback forwarded), or the TypeError thrown
by destructuring an empty array. -/
inductive RunOutcome where
  | noTerminal (success : Bool) (command : Command) (errMsg : String)
  | spawnTerminal (cmdline : String)
  | delegate (argv : List String)
  | throwsTypeError
deriving DecidableEq

/-- Embedding of `runCommand(command, containerName, callback)` (source
lines 127 to 176). The terminal probe runs first for every action; with no
terminal the callback is invoked with `(false, command, errMsg)` and nothing
is executed. `command[0] === "exec"`/`"logs"` spawn a terminal wrapping the
docker invocation; every other command is split on single spaces and
delegated to `execCommand` as
`["docker", first-token, ...extra-array-elements, second-token or
containerName]`. -/
def runCommand (h : Host) (command : Command) (containerName : String) : RunOutcome :=
  match termCmd h with
  | none =>
    RunOutcome.noTerminal false command
      ("No valid terminal found (" ++ jsJoin ", " terminalIds ++ ")")
  | some cmd =>
    if command.index0 = some "exec" then
      RunOutcome.spawnTerminal
        (jsJoin " " (cmd ++ ["\x27docker exec -it " ++ containerName ++ " sh; exec $SHELL\x27"]))
    else if command.index0 = some "logs" then
      RunOutcome.spawnTerminal
        (jsJoin " " (cmd ++ ["\x27docker logs -f --tail 2000 " ++ containerName ++ "; exec $SHELL\x27 "]))
    else
      match command.flat with
      | [] => RunOutcome.throwsTypeError
      | commands :: commandArguments =>
        let toks := jsSplit ' ' commands
        RunOutcome.delegate
          (["docker", toks.headD ""] ++ commandArguments ++
            (match toks[1]? with
             | some t2 => if t2 = "" then [containerName] else [t2]
             | none => [containerName]))

/-- A host on which `docker ps -a` reports one container `c` (status `Up`)
whose label inspection prints the literal JSON text `null` (a container
without labels). -/
def nullLabelHost : Host :=
  { run := fun argv =>
      if argv = psAllArgv then Except.ok { ok := true, stdout := "c,Up\n", stderr := "", exitStatus := 0 }
      else if argv = inspectArgv "c" then Except.ok { ok := true, stdout := "null\n", stderr := "", exitStatus := 0 }
      else Except.error "unexpected command",
    findProgramInPath := fun _ => false,
    ioErrorFromErrno := fun n => n,
    strerror := fun _ => "" }

/-- A host on which `docker ps -a` reports one container `c` (status `Up`)
carrying the four compose labels of the round-trip example. -/
def composeHost : Host :=
  { run := fun argv =>
      if argv = psAllArgv then Except.ok { ok := true, stdout := "c,Up\n", stderr := "", exitStatus := 0 }
      else if argv = inspectArgv "c" then
        Except.ok
          { ok := true,
            stdout := "\x7b\"com.docker.compose.project\":\"p\",\"com.docker.compose.service\":\"s\",\"com.docker.compose.project.config_files\":\"f\",\"com.docker.compose.project.working_dir\":\"w\"\x7d\n",
            stderr := "", exitStatus := 0 }
      else Except.error "unexpected command",
    findProgramInPath := fun _ => false,
    ioErrorFromErrno := fun n => n,
    strerror := fun _ => "" }

/-- A host on which `docker ps -a` reports one container `a` with no compose
labels (the inspect output is the empty label map). -/
def plainHost : Host :=
  { run := fun argv =>
      if argv = psAllArgv then
        Except.ok { ok := true, stdout := "a,Up 2 hours\n", stderr := "", exitStatus := 0 }
      else if argv = inspectArgv "a" then
        Except.ok { ok := true, stdout := "\x7b\x7d\n", stderr := "", exitStatus := 0 }
      else Except.error "unexpected command",
    findProgramInPath := fun _ => false,
    ioErrorFromErrno := fun n => n,
    strerror := fun _ => "" }

/-- A host on which every spawn attempt fails, modelling an argv naming a
non-existent binary. -/
def missingBinaryHost : Host :=
  { run := fun _ => Except.error "Failed to execute child process",
    findProgramInPath := fun _ => false,
    ioErrorFromErrno := fun n => n,
    strerror := fun _ => "" }

/-- A host whose child processes exit with status 1 and stderr output. -/
def failingHost : Host :=
  { run := fun _ => Except.ok { ok := false, stdout := "", stderr := " boom \n", exitStatus := 1 },
    findProgramInPath := fun _ => false,
    ioErrorFromErrno := fun n => n,
    strerror := fun n => "strerror " ++ toString n }

/-- A host with an empty running-container listing. -/
def emptyPsHost : Host :=
  { run := fun argv =>
      if argv = psRunningArgv then Except.ok { ok := true, stdout := "", stderr := "", exitStatus := 0 }
      else Except.error "unexpected command",
    findProgramInPath := fun _ => false,
    ioErrorFromErrno := fun n => n,
    strerror := fun _ => "" }

/-- A host agreeing with `emptyPsHost` on the running-container listing but
behaving differently on every other command (in particular on inspect). -/
def emptyPsHostAlt : Host :=
  { run := fun argv =>
      if argv = psRunningArgv then Except.ok { ok := true, stdout := "", stderr := "", exitStatus := 0 }
      else Except.ok { ok := true, stdout := "different", stderr := "", exitStatus := 0 },
    findProgramInPath := fun _ => false,
    ioErrorFromErrno := fun n => n,
    strerror := fun _ => "" }

/-- A host with no terminal emulator installed. -/
def noTerminalHost : Host :=
  { run := fun _ => Except.error "unexpected command",
    findProgramInPath := fun _ => false,
    ioErrorFromErrno := fun n => n,
    strerror := fun _ => "" }

/-- A host on which only the `kgx` terminal is installed. -/
def kgxHost : Host :=
  { run := fun _ => Except.error "unexpected command",
    findProgramInPath := fun t => t == "kgx",
    ioErrorFromErrno := fun n => n,
    strerror := fun _ => "" }

/-- Property access does not throw on values other than `null` and
`undefined`. -/
theorem getField_of_ne (json : JsValue) (k : String) (hnn : json ≠ JsValue.null)
    (hnu : json ≠ JsValue.undef) : json.getField k = Except.ok (fieldVal json k) := by
  cases json with
  | null => exact absurd rfl hnn
  | undef => exact absurd rfl hnu
  | bool b => rfl
  | num n => rfl
  | str s => rfl
  | arr xs => rfl
  | obj fs => rfl

/-- Every record `buildRecord` produces carries the name and status of its
listing line. -/
theorem buildRecord_name_status (json : JsValue) (img : Image) (r : Container)
    (hb : buildRecord json img = Except.ok r) : r.name = img.name ∧ r.status = img.status := by
  unfold buildRecord at hb
  repeat' split at hb
  all_goals first
    | (simp only [Except.ok.injEq] at hb; subst hb; exact ⟨rfl, rfl⟩)
    | simp at hb

/-- On a label map that is neither `null` nor `undefined`, `buildRecord`
always succeeds. -/
theorem buildRecord_total (json : JsValue) (img : Image) (hnn : json ≠ JsValue.null)
    (hnu : json ≠ JsValue.undef) : ∃ r, buildRecord json img = Except.ok r := by
  have hgf : ∀ k, json.getField k = Except.ok (fieldVal json k) :=
    fun k => getField_of_ne json k hnn hnu
  by_cases ht : (fieldVal json (composeNs ++ ".project")).truthy
  · refine ⟨{ name := img.name, status := img.status,
              compose := some { service := fieldVal json (composeNs ++ ".service"),
                                project := fieldVal json (composeNs ++ ".project"),
                                configFiles := fieldVal json (composeNs ++ ".project.config_files"),
                                workingDir := fieldVal json (composeNs ++ ".project.working_dir") } }, ?_⟩
    simp [buildRecord, hgf, ht]
  · refine ⟨{ name := img.name, status := img.status, compose := none }, ?_⟩
    simp [buildRecord, hgf, ht]

/-- Indexing a mapped list. -/
theorem list_get_map {α β : Type} (f : α → β) :
    ∀ (l : List α) (i : Nat) (h : i < (l.map f).length) (h2 : i < l.length),
      (l.map f).get ⟨i, h⟩ = f (l.get ⟨i, h2⟩) := by
  intro l
  induction l with
  | nil => intro i _ h2; exact absurd h2 (by simp)
  | cons a l ih =>
    intro i h h2
    cases i with
    | zero => rfl
    | succ n =>
      exact ih n (by simp only [List.length_map, List.length_cons] at h ⊢; omega)
        (by simp only [List.length_cons] at h2; omega)

/-- Listing lines and parsed images are in bijection. -/
theorem parseImages_length (s : String) : (parseImages s).length = (nonBlankLines s).length := by
  simp [parseImages]

/-- When every inspect call succeeds, the fan-out succeeds and returns the
outputs correlated by original index. -/
theorem inspectAll_ok (h : Host) :
    ∀ (images : List Image),
      (∀ img ∈ images, ∃ out, (execCommand h (inspectArgv img.name) false).result = Except.ok out) →
      ∃ outs, inspectAll h images = Except.ok outs ∧ outs.length = images.length ∧
        ∀ (i : Nat) (hi : i < images.length) (ho : i < outs.length),
          (execCommand h (inspectArgv (images.get ⟨i, hi⟩).name) false).result =
            Except.ok (outs.get ⟨i, ho⟩) := by
  intro images
  induction images with
  | nil =>
    intro _
    exact ⟨[], rfl, rfl, fun i hi _ => absurd hi (by simp)⟩
  | cons img rest ih =>
    intro hall
    obtain ⟨out, hout⟩ := hall img (List.mem_cons_self img rest)
    obtain ⟨outs, houts, hlen, hpt⟩ := ih (fun x hx => hall x (List.mem_cons_of_mem img hx))
    refine ⟨out :: outs, ?_, by simp [hlen], ?_⟩
    · simp [inspectAll, hout, houts]
    · intro i hi ho
      cases i with
      | zero => exact hout
      | succ n =>
        exact hpt n (by simp only [List.length_cons] at hi; omega)
          (by simp only [List.length_cons] at ho; omega)

/-- When every inspect output parses to a buildable label map, the final
mapping succeeds and its records are correlated by original index. -/
theorem buildAll_ok :
    ∀ (outs : List String) (imgs : List Image),
      outs.length = imgs.length →
      (∀ (i : Nat) (ho : i < outs.length) (hi : i < imgs.length),
        ∃ json r, jsonParse (outs.get ⟨i, ho⟩) = some json ∧
          buildRecord json (imgs.get ⟨i, hi⟩) = Except.ok r) →
      ∃ rs, buildAll outs imgs = Except.ok rs ∧ rs.length = imgs.length ∧
        ∀ (i : Nat) (hi : i < imgs.length) (ho : i < outs.length) (hr : i < rs.length),
          ∃ json, jsonParse (outs.get ⟨i, ho⟩) = some json ∧
            buildRecord json (imgs.get ⟨i, hi⟩) = Except.ok (rs.get ⟨i, hr⟩) := by
  intro outs
  induction outs with
  | nil =>
    intro imgs hlen _
    have himgs : imgs = [] := List.length_eq_zero.mp hlen.symm
    subst himgs
    exact ⟨[], rfl, rfl, fun i hi => absurd hi (by simp)⟩
  | cons out outs ih =>
    intro imgs hlen hall
    cases imgs with
    | nil => simp at hlen
    | cons img imgs2 =>
      obtain ⟨json, r, hjson, hrec⟩ := hall 0 (by simp) (by simp)
      obtain ⟨rs, hb, hrlen, hpt⟩ := ih imgs2
        (by simp only [List.length_cons] at hlen; omega)
        (fun i ho hi => hall (i + 1)
          (by simp only [List.length_cons] at ho ⊢; omega)
          (by simp only [List.length_cons] at hi ⊢; omega))
      refine ⟨r :: rs, ?_, by simp [hrlen], ?_⟩
      · have hjson2 : jsonParse out = some json := hjson
        have hrec2 : buildRecord json img = Except.ok r := hrec
        simp [buildAll, hjson2, hrec2, hb]
      · intro i hi ho hr
        cases i with
        | zero => exact ⟨json, hjson, hrec⟩
        | succ n =>
          exact hpt n (by simp only [List.length_cons] at hi; omega)
            (by simp only [List.length_cons] at ho; omega)
            (by simp only [List.length_cons] at hr; omega)

/-- Hosts that agree on an argv and on the error formatters produce the same
`execCommand` outcome for it. -/
theorem execCommand_congr (h h2 : Host) (argv : List String) (wc : Bool)
    (hr : h.run argv = h2.run argv) (hio : h.ioErrorFromErrno = h2.ioErrorFromErrno)
    (hs : h.strerror = h2.strerror) : execCommand h argv wc = execCommand h2 argv wc := by
  unfold execCommand
  simp only [hr, hio, hs]


/-- Claim C1 (code bug). The claim states that a container whose inspect
output is the literal JSON text `null` must not crash the listing and must
yield a record with only `name` and `status`. On `nullLabelHost` — one
container `c`, inspect printing `null` — the code instead throws: the
conditional spread reads a property of the parsed `null` without a guard,
so `getContainers` rejects with a TypeError and produces no records at
all. -/
theorem getContainers_null_inspect_crashes :
    getContainers nullLabelHost = Except.error JsErr.typeError := rfl

/-- Claim C2. When the child process exits with a non-zero status (the
communicate success flag being the exit-status-zero test), `execCommand`
with a supplied callback invokes it exactly once with `(false, the
space-joined argv, the captured stderr)`, and the promise rejects with an
error whose message is the trimmed stderr when stderr is non-empty, else
the system message `strerror(status)`; its code is
`io_error_from_errno(status)`. -/
theorem execCommand_nonzero_exit (h : Host) (argv : List String) (r : ProcResult)
    (hr : h.run argv = Except.ok r) (hok : r.ok = (r.exitStatus == 0))
    (hnz : r.exitStatus ≠ 0) :
    execCommand h argv true =
      { cbCalls := [(false, jsJoin " " argv, r.stderr)],
        result := Except.error (JsErr.exec (h.ioErrorFromErrno r.exitStatus)
          (if r.stderr = "" then h.strerror r.exitStatus else jsTrim r.stderr)) } := by
  have hok2 : r.ok = false := by
    rw [hok]
    simp [hnz]
  simp [execCommand, hr, hok2]

/-- Witness for C2: on `failingHost` (exit status 1, stderr " boom \n"),
the callback receives the raw stderr and the rejection message is the
trimmed stderr. -/
theorem execCommand_nonzero_exit_witness :
    execCommand failingHost ["docker", "foo"] true =
      { cbCalls := [(false, "docker foo", " boom \n")],
        result := Except.error (JsErr.exec 1 "boom") } := by
  have h := execCommand_nonzero_exit failingHost ["docker", "foo"]
    { ok := false, stdout := "", stderr := " boom \n", exitStatus := 1 } rfl rfl (by decide)
  rw [h]
  rfl

/-- Claim C3 counterexample. The claim states that on a spawn failure (argv
naming a non-existent binary) `execCommand` invokes the supplied callback
with `(false, joinedCommand, a system-level error message)`. On
`missingBinaryHost` with a callback supplied, the callback is invoked zero
times: `proc.init` throws before the promise executor installs the
communicate callback, and the catch block only rethrows. -/
theorem execCommand_spawn_failure_counterexample :
    (execCommand missingBinaryHost ["nonexistent-binary"] true).cbCalls = [] ∧
    (execCommand missingBinaryHost ["nonexistent-binary"] true).result =
      Except.error (JsErr.spawn "Failed to execute child process") := ⟨rfl, rfl⟩

/-- Claim C3 as amended: on spawn failure the supplied callback is not
invoked at all; the asynchronous result still fails with a spawn-failure
error carrying the system-level message, never resolving successfully. -/
theorem execCommand_spawn_failure (h : Host) (argv : List String) (wc : Bool) (m : String)
    (hr : h.run argv = Except.error m) :
    execCommand h argv wc =
      { cbCalls := [], result := Except.error (JsErr.spawn m) } := by
  simp [execCommand, hr]

/-- Witness for the amended C3 at `missingBinaryHost`. -/
theorem execCommand_spawn_failure_witness :
    execCommand missingBinaryHost ["x"] true =
      { cbCalls := [], result := Except.error (JsErr.spawn "Failed to execute child process") } :=
  execCommand_spawn_failure missingBinaryHost ["x"] true "Failed to execute child process" rfl

/-- Claim C4. When the listing command succeeds and every inspect output is
parseable, non-null JSON, `getContainers` produces exactly one record per
line containing a non-whitespace character, in line order; a line splitting
at the comma into `[n, s]` contributes `name = n`, `status = s`; and the
record at index `i` is built from the inspect output obtained for the name
parsed from line `i` (re-joined by original index). -/
theorem getContainers_one_record_per_line (h : Host) (psOut : String)
    (hps : (execCommand h psAllArgv false).result = Except.ok psOut)
    (hins : ∀ img ∈ parseImages psOut, ∃ out json,
      (execCommand h (inspectArgv img.name) false).result = Except.ok out ∧
      jsonParse out = some json ∧ json ≠ JsValue.null ∧ json ≠ JsValue.undef) :
    (∀ line n s, jsSplit ',' line = [n, s] → lineToImage line = { name := n, status := some s }) ∧
    ∃ rs, getContainers h = Except.ok rs ∧
      rs.length = (nonBlankLines psOut).length ∧
      ∀ (i : Nat) (hi : i < (nonBlankLines psOut).length) (hr : i < rs.length),
        (rs.get ⟨i, hr⟩).name = (lineToImage ((nonBlankLines psOut).get ⟨i, hi⟩)).name ∧
        (rs.get ⟨i, hr⟩).status = (lineToImage ((nonBlankLines psOut).get ⟨i, hi⟩)).status ∧
        ∃ out json,
          (execCommand h
              (inspectArgv (lineToImage ((nonBlankLines psOut).get ⟨i, hi⟩)).name) false).result =
            Except.ok out ∧
          jsonParse out = some json ∧
          buildRecord json (lineToImage ((nonBlankLines psOut).get ⟨i, hi⟩)) =
            Except.ok (rs.get ⟨i, hr⟩) := by
  constructor
  · intro line n s hsplit
    simp [lineToImage, hsplit]
  · obtain ⟨outs, houts, hlen, hpt⟩ := inspectAll_ok h (parseImages psOut)
      (fun img hm => by
        obtain ⟨out, json, h1, _⟩ := hins img hm
        exact ⟨out, h1⟩)
    have hmem : ∀ (i : Nat) (ho : i < outs.length) (hi2 : i < (parseImages psOut).length),
        ∃ json r, jsonParse (outs.get ⟨i, ho⟩) = some json ∧
          buildRecord json ((parseImages psOut).get ⟨i, hi2⟩) = Except.ok r := by
      intro i ho hi2
      obtain ⟨out, json, hout, hjson, hnn, hnu⟩ :=
        hins ((parseImages psOut).get ⟨i, hi2⟩) (List.get_mem _ _ _)
      have h1 := hpt i hi2 ho
      rw [hout] at h1
      injection h1 with h2
      obtain ⟨r, hrec⟩ := buildRecord_total json ((parseImages psOut).get ⟨i, hi2⟩) hnn hnu
      exact ⟨json, r, by rw [← h2]; exact hjson, hrec⟩
    obtain ⟨rs, hbuild, hrlen, hrpt⟩ :=
      buildAll_ok outs (parseImages psOut) hlen hmem
    refine ⟨rs, ?_, ?_, ?_⟩
    · simp only [getContainers, hps, houts, hbuild]
    · rw [hrlen, parseImages_length]
    · intro i hi hr
      have hi2 : i < (parseImages psOut).length := by rw [parseImages_length]; exact hi
      have ho : i < outs.length := by rw [hlen]; exact hi2
      obtain ⟨json, hjson, hbr⟩ := hrpt i hi2 ho hr
      have hgi : (parseImages psOut).get ⟨i, hi2⟩ =
          lineToImage ((nonBlankLines psOut).get ⟨i, hi⟩) :=
        list_get_map lineToImage (nonBlankLines psOut) i hi2 hi
      rw [hgi] at hbr
      have hexeci := hpt i hi2 ho
      rw [hgi] at hexeci
      obtain ⟨hname, hstatus⟩ := buildRecord_name_status json _ _ hbr
      exact ⟨hname, hstatus, outs.get ⟨i, ho⟩, json, hexeci, hjson, hbr⟩

/-- Witness for C4 on `plainHost`: one listing line `a,Up 2 hours`, inspect
output the empty label map. -/
theorem getContainers_one_record_per_line_witness :
    (∀ line n s, jsSplit ',' line = [n, s] → lineToImage line = { name := n, status := some s }) ∧
    ∃ rs, getContainers plainHost = Except.ok rs ∧
      rs.length = (nonBlankLines "a,Up 2 hours\n").length ∧
      ∀ (i : Nat) (hi : i < (nonBlankLines "a,Up 2 hours\n").length) (hr : i < rs.length),
        (rs.get ⟨i, hr⟩).name = (lineToImage ((nonBlankLines "a,Up 2 hours\n").get ⟨i, hi⟩)).name ∧
        (rs.get ⟨i, hr⟩).status =
          (lineToImage ((nonBlankLines "a,Up 2 hours\n").get ⟨i, hi⟩)).status ∧
        ∃ out json,
          (execCommand plainHost
              (inspectArgv
                (lineToImage ((nonBlankLines "a,Up 2 hours\n").get ⟨i, hi⟩)).name) false).result =
            Except.ok out ∧
          jsonParse out = some json ∧
          buildRecord json (lineToImage ((nonBlankLines "a,Up 2 hours\n").get ⟨i, hi⟩)) =
            Except.ok (rs.get ⟨i, hr⟩) := by
  refine getContainers_one_record_per_line plainHost "a,Up 2 hours\n" rfl ?_
  intro img hmem
  have hp : parseImages "a,Up 2 hours\n" = [{ name := "a", status := some "Up 2 hours" }] := rfl
  rw [hp] at hmem
  have himg : img = { name := "a", status := some "Up 2 hours" } := by
    simpa using hmem
  subst himg
  refine ⟨"\x7b\x7d\n", JsValue.obj [], rfl, rfl, ?_, ?_⟩
  · intro hcon
    exact JsValue.noConfusion hcon
  · intro hcon
    exact JsValue.noConfusion hcon

/-- A non-empty string has a non-empty character list. -/
theorem str_toList_isEmpty_false (s : String) (h : s ≠ "") : s.toList.isEmpty = false := by
  cases s with
  | mk data =>
    cases data with
    | nil => exact absurd rfl h
    | cons c cs => rfl

/-- Claim C5. For a record `buildRecord` produces (as used for every record
of `getContainers`), when the compose-project label value is a string or
absent (label maps are string-valued), the `compose` field is present iff
that value is a non-empty string; `compose = none` models the absence of
the key altogether (the spread of the empty object). -/
theorem compose_present_iff_project_label (json : JsValue) (img : Image) (r : Container)
    (v : JsValue) (hb : buildRecord json img = Except.ok r)
    (hv : json.getField (composeNs ++ ".project") = Except.ok v)
    (hstr : v = JsValue.undef ∨ ∃ s, v = JsValue.str s) :
    r.compose.isSome ↔ ∃ s, v = JsValue.str s ∧ s ≠ "" := by
  have hnn : json ≠ JsValue.null := by
    intro hcon
    subst hcon
    exact absurd hv (by simp [JsValue.getField])
  have hnu : json ≠ JsValue.undef := by
    intro hcon
    subst hcon
    exact absurd hv (by simp [JsValue.getField])
  have hgf : ∀ k, json.getField k = Except.ok (fieldVal json k) :=
    fun k => getField_of_ne json k hnn hnu
  have hveq : fieldVal json (composeNs ++ ".project") = v := by
    have h1 := hv
    rw [hgf] at h1
    injection h1
  simp only [buildRecord, hgf, hveq] at hb
  by_cases ht : v.truthy
  · rw [if_pos ht] at hb
    simp only [Except.ok.injEq] at hb
    subst hb
    simp only [Option.isSome_some, true_iff]
    rcases hstr with hundef | ⟨s, hs⟩
    · subst hundef
      exact absurd ht (by decide)
    · subst hs
      refine ⟨s, rfl, ?_⟩
      intro hse
      subst hse
      exact absurd ht (by decide)
  · rw [if_neg ht] at hb
    simp only [Except.ok.injEq] at hb
    subst hb
    constructor
    · intro hfalse
      exact absurd hfalse (by simp)
    · rintro ⟨s, hs, hse⟩
      subst hs
      refine absurd ?_ ht
      simp only [JsValue.truthy]
      rw [str_toList_isEmpty_false s hse]
      rfl

/-- Witness for C5: a label map binding only the compose-project key to
"p" yields a record whose `compose` field is present. -/
theorem compose_present_iff_project_label_witness :
    (({ name := "c", status := some "Up",
        compose := some { service := JsValue.undef, project := JsValue.str "p",
                          configFiles := JsValue.undef, workingDir := JsValue.undef } } :
        Container)).compose.isSome ↔
      ∃ s, JsValue.str "p" = JsValue.str s ∧ s ≠ "" :=
  compose_present_iff_project_label
    (JsValue.obj [("com.docker.compose.project", JsValue.str "p")])
    { name := "c", status := some "Up" }
    { name := "c", status := some "Up",
      compose := some { service := JsValue.undef, project := JsValue.str "p",
                        configFiles := JsValue.undef, workingDir := JsValue.undef } }
    (JsValue.str "p") rfl rfl (Or.inr ⟨"p", rfl⟩)

/-- Claim C6. `getContainerCount` returns the number of lines of the
running-only listing output containing a non-whitespace character, and its
result depends only on the running-only listing invocation (and the system
error formatters), so in particular no inspect call can influence it. -/
theorem getContainerCount_counts_nonblank_lines :
    (∀ (h : Host) (psOut : String),
      (execCommand h psRunningArgv false).result = Except.ok psOut →
      getContainerCount h = Except.ok (nonBlankLines psOut).length) ∧
    (∀ (h h2 : Host), h.run psRunningArgv = h2.run psRunningArgv →
      h.ioErrorFromErrno = h2.ioErrorFromErrno → h.strerror = h2.strerror →
      getContainerCount h = getContainerCount h2) := by
  constructor
  · intro h psOut hres
    simp [getContainerCount, hres, parseImages_length]
  · intro h h2 hrun hio hs
    unfold getContainerCount
    rw [execCommand_congr h h2 psRunningArgv false hrun hio hs]

/-- Witness for C6: empty listing output counts 0 containers, and a host
that differs only away from the running-only listing argv counts the
same. -/
theorem getContainerCount_counts_nonblank_lines_witness :
    getContainerCount emptyPsHost = Except.ok 0 ∧
    getContainerCount emptyPsHost = getContainerCount emptyPsHostAlt := by
  constructor
  · exact getContainerCount_counts_nonblank_lines.1 emptyPsHost "" rfl
  · exact getContainerCount_counts_nonblank_lines.2 emptyPsHost emptyPsHostAlt rfl rfl rfl

/-- Claim C7. Dispatching the `exec` or `logs` action when no terminal
emulator is found invokes the caller callback with success `false` and an
error message enumerating all four checked terminal identifiers, and
executes nothing (the outcome is the early return, not a spawn or a
delegation). -/
theorem runCommand_exec_logs_no_terminal (h : Host) (command : Command)
    (containerName : String)
    (h1 : h.findProgramInPath "x-terminal-emulator" = false)
    (h2 : h.findProgramInPath "gnome-terminal" = false)
    (h3 : h.findProgramInPath "ptyxis" = false)
    (h4 : h.findProgramInPath "kgx" = false)
    (_hcmd : command.index0 = some "exec" ∨ command.index0 = some "logs") :
    runCommand h command containerName =
      RunOutcome.noTerminal false command
        "No valid terminal found (x-terminal-emulator, gnome-terminal, ptyxis, kgx)" := by
  have htc : termCmd h = none := by simp [termCmd, h1, h2, h3, h4]
  unfold runCommand
  rw [htc]
  rfl

/-- Witness for C7: the `exec` action on a host with no terminals. -/
theorem runCommand_exec_logs_no_terminal_witness :
    runCommand noTerminalHost (Command.arr ["exec"]) "web" =
      RunOutcome.noTerminal false (Command.arr ["exec"])
        "No valid terminal found (x-terminal-emulator, gnome-terminal, ptyxis, kgx)" :=
  runCommand_exec_logs_no_terminal noTerminalHost (Command.arr ["exec"]) "web"
    rfl rfl rfl rfl (Or.inl rfl)

/-- Claim C8. For a non-exec, non-logs action, the dispatcher splits the
action id at spaces: a single-token action yields
`docker <token> <containerName>` (so action `restart` with container `web`
yields `docker restart web`), while a two-token action yields
`docker <first-token> [extra array elements] <second-token>` with the
second token taking the container position. -/
theorem runCommand_default_action (h : Host) (a : String) (extras : List String)
    (containerName : String) (hterm : termCmd h ≠ none)
    (hex : a ≠ "exec") (hlg : a ≠ "logs") :
    (∀ t1, jsSplit ' ' a = [t1] →
      runCommand h (Command.arr (a :: extras)) containerName =
        RunOutcome.delegate (["docker", t1] ++ extras ++ [containerName])) ∧
    (∀ t1 t2, jsSplit ' ' a = [t1, t2] → t2 ≠ "" →
      runCommand h (Command.arr (a :: extras)) containerName =
        RunOutcome.delegate (["docker", t1] ++ extras ++ [t2])) := by
  obtain ⟨cmd, hcmd⟩ := Option.ne_none_iff_exists'.mp hterm
  constructor
  · intro t1 hsplit
    simp [runCommand, hcmd, Command.index0, Command.flat, hex, hlg, hsplit]
  · intro t1 t2 hsplit ht2
    simp [runCommand, hcmd, Command.index0, Command.flat, hex, hlg, hsplit, ht2]

/-- Witness for C8: `restart`/`web` delegates `docker restart web`, and the
two-token `compose start`/`db` delegates `docker compose start` with the
second token in the final position. -/
theorem runCommand_default_action_witness :
    runCommand kgxHost (Command.arr ["restart"]) "web" =
      RunOutcome.delegate ["docker", "restart", "web"] ∧
    runCommand kgxHost (Command.arr ["compose start"]) "db" =
      RunOutcome.delegate ["docker", "compose", "start"] := by
  constructor
  · exact (runCommand_default_action kgxHost "restart" [] "web"
      (by decide) (by decide) (by decide)).1 "restart" rfl
  · exact (runCommand_default_action kgxHost "compose start" [] "db"
      (by decide) (by decide) (by decide)).2 "compose" "start" rfl (by decide)

/-- Claim C9. Round-trip: on `composeHost` — container `c`, status `Up`,
label map binding the four compose keys to `p`, `s`, `f`, `w` —
`getContainers` yields exactly one record with `name = "c"`,
`status = "Up"` and the compose sub-record
`{service := "s", project := "p", configFiles := "f", workingDir := "w"}`. -/
theorem getContainers_compose_roundtrip :
    getContainers composeHost =
      Except.ok [{ name := "c", status := some "Up",
                   compose := some { service := JsValue.str "s", project := JsValue.str "p",
                                     configFiles := JsValue.str "f",
                                     workingDir := JsValue.str "w" } }] := rfl

/-- Claim C10 (implicit). The terminal probe runs before the action switch,
so for every action — including non-interactive lifecycle actions such as
`start` or `stop` — a host with zero terminal emulators makes `runCommand`
invoke the callback with success `false` and return without executing any
external command. -/
theorem runCommand_any_action_no_terminal (h : Host) (command : Command)
    (containerName : String)
    (h1 : h.findProgramInPath "x-terminal-emulator" = false)
    (h2 : h.findProgramInPath "gnome-terminal" = false)
    (h3 : h.findProgramInPath "ptyxis" = false)
    (h4 : h.findProgramInPath "kgx" = false) :
    runCommand h command containerName =
      RunOutcome.noTerminal false command
        "No valid terminal found (x-terminal-emulator, gnome-terminal, ptyxis, kgx)" := by
  have htc : termCmd h = none := by simp [termCmd, h1, h2, h3, h4]
  unfold runCommand
  rw [htc]
  rfl

/-- Witness for C10: the plain lifecycle action `start` also fails early on
a host with no terminals. -/
theorem runCommand_any_action_no_terminal_witness :
    runCommand noTerminalHost (Command.arr ["start"]) "db" =
      RunOutcome.noTerminal false (Command.arr ["start"])
        "No valid terminal found (x-terminal-emulator, gnome-terminal, ptyxis, kgx)" :=
  runCommand_any_action_no_terminal noTerminalHost (Command.arr ["start"]) "db" rfl rfl rfl rfl
